import Mathlib

/-!
Verification development for a small interactive shell (`src/app/main.py`).

The Python source is shallowly embedded below:

* `tokenize_with_redirs` — the character-level tokenizer (main.py lines 172-270),
  a quote/escape state machine producing a list of string tokens; the Python
  `while` loop is `tokenizeCore`, and the post-loop unclosed-quote check and
  final flush are in `tokenize_with_redirs` itself.
* `parse_redirections` — the redirection resolver (lines 273-320), a left-to-right
  walk over the token list with last-writer-wins targets.
* `completerCandidates` — the tab-completion candidate generator (lines 125-150),
  with the filesystem path completer abstracted as a function parameter.
* `replStep` — one iteration of the REPL loop in `main` (lines 398-462), with the
  operating system (file opens, PATH lookup, process spawn) abstracted as `Env`.
  The result records the outcome (continue / exit / uncaught exception), error
  writes and their destinations, the redirect files opened and closed, the
  builtin handler invocation, and the external spawn, so that theorems can
  speak about each observable effect.
-/

deriving instance DecidableEq for Except

/-- Whitespace as recognized by Python `str.isspace` / `str.strip` on ASCII input. -/
def pyIsSpace (c : Char) : Bool :=
  c == ' ' || c == '\t' || c == '\n' || c == '\x0d' || c == '\x0b' || c == '\x0c'

/-- Python `line.strip()`: drop leading and trailing whitespace. -/
def pyStrip (s : String) : String :=
  String.mk (((s.data.dropWhile pyIsSpace).reverse.dropWhile pyIsSpace).reverse)

/-- The single-quote character. -/
def cQuoteS : Char := Char.ofNat 39

/-- The double-quote character. -/
def cQuoteD : Char := Char.ofNat 34

/-- The backslash character. -/
def cBackslash : Char := Char.ofNat 92

/-- The backquote character (one of the escapable characters inside double quotes). -/
def cBacktick : Char := Char.ofNat 96

/-- State of the tokenizer loop of `tokenize_with_redirs` (main.py lines 173-178):
the emitted tokens, the current word buffer, and the three state flags. -/
structure TokState where
  tokens : List String
  buf : List Char
  in_single : Bool
  in_double : Bool
  escape : Bool
deriving DecidableEq, Repr

/-- `flush_buf` (main.py lines 180-183): append the buffered word, if nonempty. -/
def flushBuf (tokens : List String) (buf : List Char) : List String :=
  if buf = [] then tokens else tokens ++ [String.mk buf]

/-- The `while i < len(line)` loop of `tokenize_with_redirs` (main.py lines 185-261),
one case per character, consuming one or two characters per step exactly as the
Python `i` increments do.  The `fuel` argument only bounds the recursion; every
step consumes at least one character, so any `fuel ≥` the length of the
remaining input (as used in `tokenize_with_redirs`) makes the bound irrelevant. -/
def tokenizeCore : Nat → List Char → List String → List Char → Bool → Bool → Bool → TokState
  | _, [], tokens, buf, s, d, e => ⟨tokens, buf, s, d, e⟩
  | 0, _ :: _, tokens, buf, s, d, e => ⟨tokens, buf, s, d, e⟩
  | fuel + 1, c :: rest, tokens, buf, s, d, e =>
    if e then
      tokenizeCore fuel rest tokens (buf ++ [c]) s d false
    else if !s && !d && c == cBackslash then
      tokenizeCore fuel rest tokens buf s d true
    else if s then
      if c == cQuoteS then tokenizeCore fuel rest tokens buf false d e
      else tokenizeCore fuel rest tokens (buf ++ [c]) s d e
    else if d then
      if c == cQuoteD then
        tokenizeCore fuel rest tokens buf s false e
      else if c == cBackslash then
        match rest with
        | nxt :: rest2 =>
          if nxt == cBackslash || nxt == cQuoteD || nxt == '$' || nxt == cBacktick || nxt == '\n' then
            tokenizeCore fuel rest2 tokens (buf ++ [nxt]) s d e
          else
            tokenizeCore fuel (nxt :: rest2) tokens (buf ++ [cBackslash]) s d e
        | [] => ⟨tokens, buf ++ [cBackslash], s, d, e⟩
      else
        tokenizeCore fuel rest tokens (buf ++ [c]) s d e
    else if pyIsSpace c then
      tokenizeCore fuel rest (flushBuf tokens buf) [] s d e
    else if c == cQuoteS then
      tokenizeCore fuel rest tokens buf true d e
    else if c == cQuoteD then
      tokenizeCore fuel rest tokens buf s true e
    else if c == '>' then
      -- fd-prefix detection (main.py lines 243-248): a nonempty all-digit buffer
      -- is glued onto the operator; otherwise the buffer is flushed as a word.
      let fdpre : Option (List Char) :=
        if !buf.isEmpty && buf.all Char.isDigit then some buf else none
      let tokens1 := match fdpre with | none => flushBuf tokens buf | some _ => tokens
      let pre : List Char := match fdpre with | none => [] | some b => b
      match rest with
      | nxt :: rest2 =>
        if nxt == '>' then
          tokenizeCore fuel rest2 (tokens1 ++ [String.mk (pre ++ ['>', '>'])]) [] s d e
        else
          tokenizeCore fuel (nxt :: rest2) (tokens1 ++ [String.mk (pre ++ ['>'])]) [] s d e
      | [] => ⟨tokens1 ++ [String.mk (pre ++ ['>'])], [], s, d, e⟩
    else
      tokenizeCore fuel rest tokens (buf ++ [c]) s d e

/-- The final state of the tokenizer loop on a whole line. -/
def tokenizeRun (line : String) : TokState :=
  tokenizeCore line.data.length line.data [] [] false false false

/-- `tokenize_with_redirs` (main.py lines 172-270): run the loop, then fail on an
unclosed quote (the Python `raise ValueError("unclosed quote")`), else flush a
trailing lone backslash and the final word. -/
def tokenize_with_redirs (line : String) : Except String (List String) :=
  let st := tokenizeRun line
  if st.in_single || st.in_double then
    .error "unclosed quote"
  else
    .ok (flushBuf st.tokens (if st.escape then st.buf ++ [cBackslash] else st.buf))

/-- The six token strings that `parse_redirections` recognizes as redirection
operators (main.py lines 293-315). -/
def isRedirOp (t : String) : Prop :=
  t = ">" ∨ t = "1>" ∨ t = ">>" ∨ t = "1>>" ∨ t = "2>" ∨ t = "2>>"

instance (t : String) : Decidable (isRedirOp t) := by
  unfold isRedirOp; infer_instance

/-- The `while` loop of `parse_redirections` (main.py lines 284-318), with the
mutable `argv`, `stdout_path`, `stdout_mode`, `stderr_path`, `stderr_mode`
threaded as accumulators.  `need_target` failing (no token after the operator)
is the `.error` case, with the Python message. -/
def parseRedirAux : List String → List String → Option String → String → Option String → String →
    Except String (List String × Option String × String × Option String × String)
  | [], argv, o, om, ep, em => .ok (argv, o, om, ep, em)
  | t :: rest, argv, o, om, ep, em =>
    if t = ">" ∨ t = "1>" then
      match rest with
      | [] => .error ("syntax error near unexpected token `" ++ t ++ "`")
      | tgt :: rest2 => parseRedirAux rest2 argv (some tgt) "w" ep em
    else if t = ">>" ∨ t = "1>>" then
      match rest with
      | [] => .error ("syntax error near unexpected token `" ++ t ++ "`")
      | tgt :: rest2 => parseRedirAux rest2 argv (some tgt) "a" ep em
    else if t = "2>" then
      match rest with
      | [] => .error ("syntax error near unexpected token `" ++ t ++ "`")
      | tgt :: rest2 => parseRedirAux rest2 argv o om (some tgt) "w"
    else if t = "2>>" then
      match rest with
      | [] => .error ("syntax error near unexpected token `" ++ t ++ "`")
      | tgt :: rest2 => parseRedirAux rest2 argv o om (some tgt) "a"
    else
      parseRedirAux rest (argv ++ [t]) o om ep em

/-- `parse_redirections` (main.py lines 273-320): returns
`(argv, stdout_path, stdout_mode, stderr_path, stderr_mode)` with modes
defaulting to `"w"`. -/
def parse_redirections (ts : List String) :
    Except String (List String × Option String × String × Option String × String) :=
  parseRedirAux ts [] none "w" none "w"

/-- The parsed form of a full input line as `main` computes it (main.py lines
415-422): the first token is taken as the command, and only the remaining
tokens are passed to `parse_redirections`. -/
structure Parsed where
  command : String
  argv : List String
  stdout_path : Option String
  stdout_mode : String
  stderr_path : Option String
  stderr_mode : String
deriving DecidableEq, Repr

/-- Tokenize-then-resolve exactly as `main` does (main.py lines 409-425):
`none` stands for the error branches (reported and skipped there). -/
def pipelineParse (line : String) : Option Parsed :=
  match tokenize_with_redirs line with
  | .error _ => none
  | .ok [] => none
  | .ok (command :: raw_argv) =>
    match parse_redirections raw_argv with
    | .error _ => none
    | .ok (argv, o, om, ep, em) => some ⟨command, argv, o, om, ep, em⟩

/-! ### Completion engine (main.py lines 38-150) -/

/-- The scanner of `_in_quotes` (main.py lines 38-63): a simplified quote/escape
replay used only by the completer.  Returns the final `(in_single, in_double)`. -/
def inQuotesScan : List Char → Bool → Bool → Bool → Bool × Bool
  | [], s, d, _ => (s, d)
  | c :: rest, s, d, esc =>
    if esc then inQuotesScan rest s d false
    else if !s && c == cBackslash then inQuotesScan rest s d true
    else if c == cQuoteS && !d then inQuotesScan rest (!s) d esc
    else if c == cQuoteD && !s then inQuotesScan rest s (!d) esc
    else inQuotesScan rest s d esc

/-- Python `s.startswith(p)`, as a prefix test on the character lists. -/
def strStartsWith (s p : String) : Bool :=
  p.data.isPrefixOf s.data

/-- Python `s.endswith(p)`, as a suffix test on the character lists. -/
def strEndsWith (s p : String) : Bool :=
  p.data.reverse.isPrefixOf s.data.reverse

/-- `_in_quotes(line, idx)` truthiness: whether position `idx` is inside quotes. -/
def pyInQuotes (line : String) (idx : Nat) : Bool :=
  let sd := inQuotesScan (line.data.take idx) false false false
  sd.1 || sd.2

/-- `s.replace(" ", "\\ ")` on a character list. -/
def escapeSpaces : List Char → List Char
  | [] => []
  | c :: rest => if c == ' ' then cBackslash :: ' ' :: escapeSpaces rest else c :: escapeSpaces rest

/-- `_escape_if_needed` (main.py lines 66-71). -/
def escapeIfNeeded (s : String) (line : String) (begidx : Nat) : String :=
  if pyInQuotes line begidx then s else String.mk (escapeSpaces s.data)

/-- Lexicographic code-point comparison of character lists (Python `<` on strings). -/
def charListLt : List Char → List Char → Bool
  | [], [] => false
  | [], _ :: _ => true
  | _ :: _, [] => false
  | a :: as, b :: bs => if a < b then true else if b < a then false else charListLt as bs

/-- Python `<` on strings. -/
def strLt (x y : String) : Bool :=
  charListLt x.data y.data

/-- Insertion into a sorted list of strings (ascending, as Python `sorted`). -/
def insertSorted (x : String) : List String → List String
  | [] => [x]
  | y :: ys => if strLt y x then y :: insertSorted x ys else x :: y :: ys

/-- Ascending insertion sort over strings. -/
def pySorted : List String → List String
  | [] => []
  | x :: xs => insertSorted x (pySorted xs)

/-- Python `sorted(set_a | set_b)`: duplicates collapsed, then sorted ascending. -/
def pySortedSet (xs : List String) : List String :=
  pySorted xs.eraseDups

/-- `builtin_commands` (main.py line 339). -/
def builtin_commands : List String :=
  ["exit", "echo", "help", "type", "pwd", "cd", "ls"]

/-- The keys of the `handlers` dict (main.py lines 389-396); the values are the
builtin closures.  Note `"ls"` is commented out in the source, so it is absent
here even though `cmd_ls` is defined and `"ls"` is in `builtin_commands`. -/
def handlers : List String :=
  ["echo", "help", "type", "pwd", "cd"]

/-- The candidate list computed by `completer` (main.py lines 125-150), i.e. the
full sequence that the `state`-indexed callback walks through.  The filesystem
path completer `_complete_paths` is abstracted as the `pathComplete` argument;
`builtin_set` and `path_exes` are the captured name sets (as lists). -/
def completerCandidates (builtin_set path_exes : List String)
    (pathComplete : String → List String)
    (line : String) (begidx : Nat) (text : String) : List String :=
  let before := String.mk (line.data.take begidx)
  if pyStrip before = "" then
    -- command position
    let candidates :=
      if strStartsWith text "/" || strStartsWith text "./" || strStartsWith text "../" || strStartsWith text "~" then
        pathComplete text
      else
        ((pySortedSet (builtin_set ++ path_exes)).filter (fun x => strStartsWith x text)).map
          (fun x => escapeIfNeeded x line begidx)
    match candidates with
    | [c] => if strEndsWith c " " then [c] else [c ++ " "]
    | _ => candidates
  else
    -- argument position: always path completion
    let candidates := pathComplete text
    match candidates with
    | [c] =>
      -- the source condition is `c.endswith("/") or c.endswith(os.sep)`;
      -- on the POSIX platform both disjuncts are "/"
      if strEndsWith c "/" || strEndsWith c "/" then [c] else [c ++ " "]
    | _ => candidates

/-! ### REPL driver (main.py lines 323-335 and 398-462)

The operating system is abstracted as `Env`: whether opening a redirect target
path succeeds, what `shutil.which` resolves a name to, and how a spawned child
behaves.  One iteration of the `while True` loop is `replStep`; its `StepResult`
records every observable effect the claims speak about. -/

/-- Where an error line is written: the original stderr, or a redirect file. -/
inductive Dest where
  | origErr
  | file (path : String)
deriving DecidableEq, Repr

/-- How one loop iteration ends: continue with the next prompt, terminate the
session (the `break` statements), or an uncaught exception that aborts `main`. -/
inductive StepOutcome where
  | cont
  | exitSession
  | crash (exn : String)
deriving DecidableEq, Repr

/-- Result of `subprocess.run` as far as `main` observes it (lines 446-457). -/
inductive SpawnResult where
  | ok
  | permissionError
  | osError (msg : String)
deriving DecidableEq, Repr

/-- The operating-system oracle. -/
structure Env where
  openOk : String → Bool
  which : String → Option String
  spawn : String → List String → SpawnResult

/-- Observable effects of one REPL iteration. -/
structure StepResult where
  outcome : StepOutcome
  writes : List (Dest × String)
  opened : List String
  closed : List String
  invoked : Option (String × List String)
  spawned : Option (String × String × List String)
deriving DecidableEq, Repr

/-- A continue-result carrying only error writes. -/
def contResult (writes : List (Dest × String)) : StepResult :=
  ⟨.cont, writes, [], [], none, none⟩

/-- The result of an uncaught exception escaping the loop body, with the
redirect handles that had already been opened (and are never closed). -/
def crashResult (exn : String) (openedSoFar : List String) : StepResult :=
  ⟨.crash exn, [], openedSoFar, [], none, none⟩

/-- The `break` on `exit` (line 419) and, identically, the EOF path. -/
def exitResult : StepResult :=
  ⟨.exitSession, [], [], [], none, none⟩

/-- The two `open` calls that start `redirected_streams` (lines 325-326) and,
with the same order and failure behavior, lines 443-444 of the external path:
stdout target first, then stderr target.  A failure raises `OSError` before any
`try`, so an already-opened stdout handle is leaked and the exception escapes. -/
def openStreams (env : Env) (out_path err_path : Option String) :
    Except StepResult (List String) :=
  match out_path with
  | some p =>
    if env.openOk p then
      match err_path with
      | some q =>
        if env.openOk q then .ok [p, q]
        else .error (crashResult ("OSError: open " ++ q) [p])
      | none => .ok [p]
    else .error (crashResult ("OSError: open " ++ p) [])
  | none =>
    match err_path with
    | some q =>
      if env.openOk q then .ok [q]
      else .error (crashResult ("OSError: open " ++ q) [])
    | none => .ok []

/-- Where `eprint` writes while `redirected_streams` is active: the stderr
redirect file if one was declared, otherwise the original stderr. -/
def errDest : Option String → Dest
  | some q => .file q
  | none => .origErr

/-- Dispatch of a parsed command (main.py lines 427-462): builtin table lookup,
else external resolution via `"/" in command` or `shutil.which`, else
command-not-found; spawn errors are caught and reported. -/
def dispatch (env : Env) (command : String) (argv : List String)
    (out_path : Option String) (err_path : Option String) : StepResult :=
  if command ∈ handlers then
    match openStreams env out_path err_path with
    | .error r => r
    | .ok opened =>
      ⟨.cont, [], opened, opened, some (command, argv), none⟩
  else
    match (if command.data.contains '/' then some command else env.which command) with
    | none =>
      match openStreams env out_path err_path with
      | .error r => r
      | .ok opened =>
        ⟨.cont, [(errDest err_path, command ++ ": command not found")], opened, opened, none, none⟩
    | some exe =>
      match openStreams env out_path err_path with
      | .error r => r
      | .ok opened =>
        match env.spawn command argv with
        | .ok =>
          ⟨.cont, [], opened, opened, none, some (command, exe, argv)⟩
        | .permissionError =>
          -- the except-branch re-enters redirected_streams (lines 452-454),
          -- opening and closing the redirect files a second time
          ⟨.cont, [(errDest err_path, command ++ ": permission denied")],
            opened ++ opened, opened ++ opened, none, some (command, exe, argv)⟩
        | .osError m =>
          ⟨.cont, [(errDest err_path, command ++ ": failed to execute (" ++ m ++ ")")],
            opened ++ opened, opened ++ opened, none, some (command, exe, argv)⟩

/-- Lines 421-425: resolve redirections; a `ValueError` is printed verbatim to
the original stderr and the loop continues. -/
def afterParse (env : Env) (command : String) :
    Except String (List String × Option String × String × Option String × String) → StepResult
  | .error msg => contResult [(.origErr, msg)]
  | .ok (argv, o, _om, ep, _em) => dispatch env command argv o ep

/-- Lines 409-425: the tokenize error branch, the `tokens[0]` access (an
`IndexError` on an empty token list), the `exit` shortcut, then resolution. -/
def afterTokenize (env : Env) : Except String (List String) → StepResult
  | .error msg => contResult [(.origErr, "parse error: " ++ msg)]
  | .ok [] => crashResult "IndexError" []
  | .ok (command :: raw_argv) =>
    if command = "exit" then exitResult
    else afterParse env command (parse_redirections raw_argv)

/-- One iteration of the `while True` loop (main.py lines 398-462), for a line
already read: strip, skip empty lines, tokenize, and the rest. -/
def replStep (env : Env) (rawLine : String) : StepResult :=
  let line := pyStrip rawLine
  if line = "" then contResult []
  else afterTokenize env (tokenize_with_redirs line)

/-- Whether an `Except` is the error case. -/
def isErr {ε α : Type} : Except ε α → Bool
  | .error _ => true
  | .ok _ => false

/-- An environment where every open succeeds, `ls` resolves to `/bin/ls`, and
spawns succeed. -/
def envLs : Env :=
  ⟨fun _ => true, fun n => if n = "ls" then some "/bin/ls" else none, fun _ _ => .ok⟩

/-- An environment where every open succeeds and nothing is on the PATH. -/
def envEmpty : Env :=
  ⟨fun _ => true, fun _ => none, fun _ _ => .ok⟩

/-- An environment where every open fails. -/
def envNoOpen : Env :=
  ⟨fun _ => false, fun _ => none, fun _ _ => .ok⟩

/-- An environment where only the path "o" can be opened. -/
def envOnlyO : Env :=
  ⟨fun p => p = "o", fun _ => none, fun _ _ => .ok⟩

/-! ### Resolver lemmas -/

/-- Equality of strings follows from equality of their character lists. -/
theorem strOfData {a b : String} (h : a.data = b.data) : a = b :=
  congrArg String.mk h

/-- A non-operator token is appended to `argv` and the walk continues. -/
theorem parseRedirAux_nonop (t : String) (ht : ¬ isRedirOp t)
    (rest argv : List String) (o : Option String) (om : String) (ep : Option String) (em : String) :
    parseRedirAux (t :: rest) argv o om ep em = parseRedirAux rest (argv ++ [t]) o om ep em := by
  unfold isRedirOp at ht
  push_neg at ht
  obtain ⟨n1, n2, n3, n4, n5, n6⟩ := ht
  rw [parseRedirAux.eq_def]
  simp [n1, n2, n3, n4, n5, n6]

/-- A run of non-operator tokens is transferred verbatim into `argv`. -/
theorem parseRedirAux_words (ts : List String) (h : ∀ t ∈ ts, ¬ isRedirOp t) :
    ∀ (rest argv : List String) (o : Option String) (om : String) (ep : Option String) (em : String),
      parseRedirAux (ts ++ rest) argv o om ep em = parseRedirAux rest (argv ++ ts) o om ep em := by
  induction ts with
  | nil => intro rest argv o om ep em; simp
  | cons t ts ih =>
    intro rest argv o om ep em
    have ht : ¬ isRedirOp t := h t (by simp)
    have h' : ∀ u ∈ ts, ¬ isRedirOp u := fun u hu => h u (by simp [hu])
    rw [List.cons_append, parseRedirAux_nonop t ht, ih h']
    simp

/-- On an operator-free token list the walk succeeds and returns the
accumulators with the tokens appended to `argv`. -/
theorem parseRedirAux_words_ok (ts : List String) (h : ∀ t ∈ ts, ¬ isRedirOp t)
    (argv : List String) (o : Option String) (om : String) (ep : Option String) (em : String) :
    parseRedirAux ts argv o om ep em = .ok (argv ++ ts, o, om, ep, em) := by
  have h0 := parseRedirAux_words ts h [] argv o om ep em
  simpa [parseRedirAux] using h0

/-- The `(stdout_path, stdout_mode, stderr_path, stderr_mode)` quadruple that a
single redirection operator with target `tgt` produces from the defaults. -/
def redirOf (op tgt : String) : Option String × String × Option String × String :=
  if op = ">" ∨ op = "1>" then (some tgt, "w", none, "w")
  else if op = ">>" ∨ op = "1>>" then (some tgt, "a", none, "w")
  else if op = "2>" then (none, "w", some tgt, "w")
  else (none, "w", some tgt, "a")

/-- A token list has a dangling redirection: walking left to right (skipping an
operator together with its target), some operator is the final token. -/
inductive Dangling : List String → Prop where
  | last (op : String) : isRedirOp op → Dangling [op]
  | word (t : String) (ts : List String) : ¬ isRedirOp t → Dangling ts → Dangling (t :: ts)
  | skip (op tgt : String) (ts : List String) : isRedirOp op → Dangling ts → Dangling (op :: tgt :: ts)

/-- The empty token list has no dangling redirection. -/
theorem not_dangling_nil : ¬ Dangling ([] : List String) := fun h => nomatch h

/-- Prepending a non-operator word preserves danglingness in both directions. -/
theorem dangling_cons_iff (t : String) (rest : List String) (ht : ¬ isRedirOp t) :
    Dangling (t :: rest) ↔ Dangling rest := by
  constructor
  · intro h
    cases h with
    | last op hop => exact absurd hop ht
    | word t ts hn hd => exact hd
    | skip op tgt ts hop hd => exact absurd hop ht
  · exact Dangling.word t rest ht

/-- Prepending an operator together with its consumed target preserves
danglingness in both directions. -/
theorem dangling_op_cons_iff (op tgt : String) (rest : List String) (hop : isRedirOp op) :
    Dangling (op :: tgt :: rest) ↔ Dangling rest := by
  constructor
  · intro h
    cases h with
    | word t ts hn hd => exact absurd hop hn
    | skip op tgt ts hop2 hd => exact hd
  · exact Dangling.skip op tgt rest hop

/-- The walk fails (under any accumulator state) exactly on dangling lists. -/
theorem parseRedirAux_isErr_iff :
    ∀ (n : Nat) (ts : List String), ts.length ≤ n →
      ∀ (argv : List String) (o : Option String) (om : String) (ep : Option String) (em : String),
        (isErr (parseRedirAux ts argv o om ep em) = true ↔ Dangling ts) := by
  intro n
  induction n with
  | zero =>
    intro ts hts argv o om ep em
    have h0 : ts = [] := List.length_eq_zero.mp (Nat.le_zero.mp hts)
    subst h0
    constructor
    · intro h; simp [parseRedirAux, isErr] at h
    · intro h; exact absurd h not_dangling_nil
  | succ n ih =>
    intro ts hts argv o om ep em
    match ts with
    | [] =>
      constructor
      · intro h; simp [parseRedirAux, isErr] at h
      · intro h; exact absurd h not_dangling_nil
    | t :: rest =>
      by_cases hop : isRedirOp t
      · match rest with
        | [] =>
          have hd : Dangling [t] := Dangling.last t hop
          rcases hop with h|h|h|h|h|h <;> subst h <;>
            simp [parseRedirAux, isErr, hd]
        | tgt :: rest2 =>
          have hlen : rest2.length ≤ n := by simp at hts; omega
          rw [dangling_op_cons_iff t tgt rest2 hop]
          rcases hop with h|h|h|h|h|h <;> subst h
          · rw [show parseRedirAux (">" :: tgt :: rest2) argv o om ep em =
                parseRedirAux rest2 argv (some tgt) "w" ep em from by simp [parseRedirAux]]
            exact ih rest2 hlen _ _ _ _ _
          · rw [show parseRedirAux ("1>" :: tgt :: rest2) argv o om ep em =
                parseRedirAux rest2 argv (some tgt) "w" ep em from by simp [parseRedirAux]]
            exact ih rest2 hlen _ _ _ _ _
          · rw [show parseRedirAux (">>" :: tgt :: rest2) argv o om ep em =
                parseRedirAux rest2 argv (some tgt) "a" ep em from by simp [parseRedirAux]]
            exact ih rest2 hlen _ _ _ _ _
          · rw [show parseRedirAux ("1>>" :: tgt :: rest2) argv o om ep em =
                parseRedirAux rest2 argv (some tgt) "a" ep em from by simp [parseRedirAux]]
            exact ih rest2 hlen _ _ _ _ _
          · rw [show parseRedirAux ("2>" :: tgt :: rest2) argv o om ep em =
                parseRedirAux rest2 argv o om (some tgt) "w" from by simp [parseRedirAux]]
            exact ih rest2 hlen _ _ _ _ _
          · rw [show parseRedirAux ("2>>" :: tgt :: rest2) argv o om ep em =
                parseRedirAux rest2 argv o om (some tgt) "a" from by simp [parseRedirAux]]
            exact ih rest2 hlen _ _ _ _ _
      · have hlen : rest.length ≤ n := by simp at hts; omega
        rw [parseRedirAux_nonop t hop, dangling_cons_iff t rest hop]
        exact ih rest hlen _ _ _ _ _

/-- A nonempty all-digit string other than `"1"` and `"2"`, fused with `>`,
is none of the six operator strings. -/
theorem fused_digit_not_op (d : String) (hne : d ≠ "")
    (hdig : ∀ c ∈ d.data, c.isDigit = true) (h1 : d ≠ "1") (h2 : d ≠ "2") :
    ¬ isRedirOp (d ++ ">") := by
  intro hop
  have hds : (d ++ ">").data = d.data ++ ['>'] := String.data_append d ">"
  rcases hd0 : d.data with _ | ⟨c1, _ | ⟨c2, cs⟩⟩
  · exact hne (strOfData hd0)
  · have hc1 : c1.isDigit = true := hdig c1 (by rw [hd0]; simp)
    have hmk : d = String.mk [c1] := strOfData hd0
    rcases hop with h|h|h|h|h|h
    · have h' := congrArg String.data h; rw [hds, hd0] at h'; simp at h'
    · have h' := congrArg String.data h; rw [hds, hd0] at h'; simp at h'
      exact h1 (by rw [hmk, h'])
    · have h' := congrArg String.data h; rw [hds, hd0] at h'; simp at h'
      rw [h'] at hc1; exact absurd hc1 (by decide)
    · have h' := congrArg String.data h; rw [hds, hd0] at h'; simp at h'
    · have h' := congrArg String.data h; rw [hds, hd0] at h'; simp at h'
      exact h2 (by rw [hmk, h'])
    · have h' := congrArg String.data h; rw [hds, hd0] at h'; simp at h'
  · have hc2 : c2.isDigit = true := hdig c2 (by rw [hd0]; simp)
    rcases hop with h|h|h|h|h|h
    · have h' := congrArg String.data h; rw [hds, hd0] at h'; simp at h'
    · have h' := congrArg String.data h; rw [hds, hd0] at h'; simp at h'
    · have h' := congrArg String.data h; rw [hds, hd0] at h'; simp at h'
    · have h' := congrArg String.data h; rw [hds, hd0] at h'; simp at h'
      obtain ⟨-, hc, -⟩ := h'
      rw [hc] at hc2; exact absurd hc2 (by decide)
    · have h' := congrArg String.data h; rw [hds, hd0] at h'; simp at h'
    · have h' := congrArg String.data h; rw [hds, hd0] at h'; simp at h'
      obtain ⟨-, hc, -⟩ := h'
      rw [hc] at hc2; exact absurd hc2 (by decide)

/-! ### Claim theorems -/

/-- C1, counterexample: the claim states that a `>` inside quotes is never
interpreted as a redirection operator, e.g. that `echo '>' f` resolves to argv
`["echo", ">", "f"]` with no redirection targets.  In fact tokens are plain
strings, so the quoted `>` becomes the token `">"`, which the resolver then
treats as a stdout redirection with target `f`: the resolved argv is `["echo"]`
and the stdout target is `f`. -/
theorem c1_counterexample :
    pipelineParse "echo '>' f" = some ⟨"echo", [], some "f", "w", none, "w"⟩ ∧
    pipelineParse "echo '>' f" ≠ some ⟨"echo", [">", "f"], none, "w", none, "w"⟩ := by decide

/-- C1, amended: a quoted `>` is literal at tokenization time — it never splits
the current word and never produces an operator while the quote is open
(`echo '>x' f` tokenizes to the single word `>x`, unlike unquoted `echo >x f`)
— but quoting information is erased from the emitted token, so a word that
ends up exactly equal to one of the operator strings (such as the lone `">"`
from `echo '>' f`) is subsequently re-interpreted by the resolver as a
redirection operator.  Quoted `>` embedded in a longer word stays in argv. -/
theorem c1_theorem :
    tokenize_with_redirs "echo '>' f" = .ok ["echo", ">", "f"] ∧
    tokenize_with_redirs "echo '>x' f" = .ok ["echo", ">x", "f"] ∧
    tokenize_with_redirs "echo >x f" = .ok ["echo", ">", "x", "f"] ∧
    pipelineParse "echo '>x' f" = some ⟨"echo", [">x", "f"], none, "w", none, "w"⟩ ∧
    pipelineParse "echo '>' f" = some ⟨"echo", [], some "f", "w", none, "w"⟩ := by decide

/-- C2, counterexample: the claim states that redirection operators are stripped
regardless of position, including an operator that precedes the command word.
But `main` takes `tokens[0]` as the command before resolving redirections, so
for `1> out.txt echo hello` the operator `1>` becomes the command, nothing is
stripped, and no stdout target is set — not command `echo`, argv `["hello"]`,
stdout target `out.txt` as the claim predicts. -/
theorem c2_counterexample :
    pipelineParse "1> out.txt echo hello" =
      some ⟨"1>", ["out.txt", "echo", "hello"], none, "w", none, "w"⟩ ∧
    pipelineParse "1> out.txt echo hello" ≠
      some ⟨"echo", ["hello"], some "out.txt", "w", none, "w"⟩ := by decide

/-- C2, amended: within the token sequence that is actually handed to the
resolver (everything after the first token), an operator-plus-target pair is
stripped at any position — before, between, or after ordinary words — and argv
is exactly the remaining non-redirection words in their original order; the
example `echo 1> out.txt hello` resolves to command `echo`, argv `["hello"]`,
stdout target `out.txt`.  Only an operator in first position escapes this,
because `main` takes it as the command word before resolution runs. -/
theorem c2_theorem (ts1 ts2 : List String) (op tgt : String)
    (h1 : ∀ t ∈ ts1, ¬ isRedirOp t) (h2 : ∀ t ∈ ts2, ¬ isRedirOp t) (hop : isRedirOp op) :
    parse_redirections (ts1 ++ op :: tgt :: ts2) = .ok (ts1 ++ ts2, redirOf op tgt) ∧
    pipelineParse "echo 1> out.txt hello" =
      some ⟨"echo", ["hello"], some "out.txt", "w", none, "w"⟩ := by
  refine ⟨?_, by decide⟩
  unfold parse_redirections
  rw [parseRedirAux_words ts1 h1]
  simp only [List.nil_append]
  have hok := parseRedirAux_words_ok ts2 h2
  rcases hop with h|h|h|h|h|h <;> subst h
  · rw [show parseRedirAux (">" :: tgt :: ts2) ts1 none "w" none "w" =
        parseRedirAux ts2 ts1 (some tgt) "w" none "w" from by simp [parseRedirAux]]
    rw [hok]; simp [redirOf]
  · rw [show parseRedirAux ("1>" :: tgt :: ts2) ts1 none "w" none "w" =
        parseRedirAux ts2 ts1 (some tgt) "w" none "w" from by simp [parseRedirAux]]
    rw [hok]; simp [redirOf]
  · rw [show parseRedirAux (">>" :: tgt :: ts2) ts1 none "w" none "w" =
        parseRedirAux ts2 ts1 (some tgt) "a" none "w" from by simp [parseRedirAux]]
    rw [hok]; simp [redirOf]
  · rw [show parseRedirAux ("1>>" :: tgt :: ts2) ts1 none "w" none "w" =
        parseRedirAux ts2 ts1 (some tgt) "a" none "w" from by simp [parseRedirAux]]
    rw [hok]; simp [redirOf]
  · rw [show parseRedirAux ("2>" :: tgt :: ts2) ts1 none "w" none "w" =
        parseRedirAux ts2 ts1 none "w" (some tgt) "w" from by simp [parseRedirAux]]
    rw [hok]; simp [redirOf]
  · rw [show parseRedirAux ("2>>" :: tgt :: ts2) ts1 none "w" none "w" =
        parseRedirAux ts2 ts1 none "w" (some tgt) "a" from by simp [parseRedirAux]]
    rw [hok]; simp [redirOf]

/-- C2, witness: the amended theorem applied with `ts1 = ["echo"]`,
`op = "1>"`, `tgt = "out.txt"`, `ts2 = ["hello"]`. -/
theorem c2_witness :
    parse_redirections ["echo", "1>", "out.txt", "hello"] =
      .ok (["echo", "hello"], some "out.txt", "w", none, "w") := by
  have h := c2_theorem ["echo"] ["hello"] "1>" "out.txt" (by decide) (by decide) (by decide)
  simpa [redirOf] using h.1

/-- C5: when the tokenizer meets `>` in normal state, a buffered all-digit
prefix is fused onto the operator token; the resolver then gives the operator
fd 1 by default (token `>`), fd 1 for prefix `1` (token `1>`), and fd 2 exactly
for prefix `2` (token `2>`).  Any other digit prefix `d` produces the fused
token `d ++ ">"`, which is not one of the six operator strings, so the resolver
leaves it (and the would-be target) in argv as ordinary word text with no
redirection — e.g. `echo 3> f` keeps `3>` and `f` as words. -/
theorem c5_theorem (d : String) (hne : d ≠ "") (hdig : ∀ c ∈ d.data, c.isDigit = true)
    (h1 : d ≠ "1") (h2 : d ≠ "2") :
    tokenize_with_redirs "echo > f" = .ok ["echo", ">", "f"] ∧
    tokenize_with_redirs "echo 1> f" = .ok ["echo", "1>", "f"] ∧
    tokenize_with_redirs "echo 2> f" = .ok ["echo", "2>", "f"] ∧
    tokenize_with_redirs "echo 3> f" = .ok ["echo", "3>", "f"] ∧
    parse_redirections [">", "f"] = .ok ([], some "f", "w", none, "w") ∧
    parse_redirections ["1>", "f"] = .ok ([], some "f", "w", none, "w") ∧
    parse_redirections ["2>", "f"] = .ok ([], none, "w", some "f", "w") ∧
    ¬ isRedirOp (d ++ ">") ∧
    parse_redirections [d ++ ">", "f"] = .ok ([d ++ ">", "f"], none, "w", none, "w") := by
  have hnop := fused_digit_not_op d hne hdig h1 h2
  refine ⟨by decide, by decide, by decide, by decide, by decide, by decide, by decide, hnop, ?_⟩
  have hall : ∀ t ∈ [d ++ ">", "f"], ¬ isRedirOp t := by
    intro t ht
    simp at ht
    rcases ht with h | h
    · rw [h]; exact hnop
    · rw [h]; decide
  have hok := parseRedirAux_words_ok [d ++ ">", "f"] hall [] none "w" none "w"
  simpa [parse_redirections] using hok

/-- C5, witness: the theorem applied at the digit prefix `"3"`. -/
theorem c5_witness :
    ¬ isRedirOp ("3" ++ ">") ∧
    parse_redirections ["3" ++ ">", "f"] = .ok (["3" ++ ">", "f"], none, "w", none, "w") := by
  have h := c5_theorem "3" (by decide) (by decide) (by decide) (by decide)
  exact ⟨h.2.2.2.2.2.2.2.1, h.2.2.2.2.2.2.2.2⟩

/-- C8: resolving fails with the dangling-redirection syntax error exactly when,
walking the token list left to right (an operator always consuming the token
after it), some operator has no following token; otherwise the following token
is consumed verbatim as the target even if it itself looks like an operator
(`> >>` makes `>>` the stdout target), and a later target for the same stream
overwrites an earlier one — last writer wins, independently per stream. -/
theorem c8_theorem :
    (∀ ts : List String, isErr (parse_redirections ts) = true ↔ Dangling ts) ∧
    parse_redirections [">", ">>"] = .ok ([], some ">>", "w", none, "w") ∧
    parse_redirections [">", "a", "1>", "b"] = .ok ([], some "b", "w", none, "w") ∧
    parse_redirections ["2>", "a", "2>>", "b"] = .ok ([], none, "w", some "b", "a") ∧
    parse_redirections ["2>", "e", ">", "o"] = .ok ([], some "o", "w", some "e", "w") := by
  refine ⟨fun ts => ?_, by decide, by decide, by decide, by decide⟩
  exact parseRedirAux_isErr_iff ts.length ts le_rfl [] none "w" none "w"

/-- C8, witness: the characterization applied to the dangling list `["2>>"]`. -/
theorem c8_witness : isErr (parse_redirections ["2>>"]) = true :=
  (c8_theorem.1 ["2>>"]).mpr (Dangling.last "2>>" (by decide))

/-- C10: quoting information is erased from the word buffer before `>` is
examined, so the quoted digit in `echo "2"> f` is still consumed as an fd
prefix: the tokenizer emits the token `2>` and the resolver redirects stderr to
`f`, leaving no `2` argument in argv. -/
theorem c10_theorem :
    tokenize_with_redirs "echo \"2\"> f" = .ok ["echo", "2>", "f"] ∧
    pipelineParse "echo \"2\"> f" = some ⟨"echo", [], none, "w", some "f", "w"⟩ := by decide

/-- C3, code bug: the builtin table named by the claim (and by the spec) lists
`echo, pwd, cd, type, help, ls`, and `cmd_ls` is defined in the source with
`"ls"` present in `builtin_commands` (so `type ls` reports a shell builtin) —
but the `handlers` dict entry for `"ls"` is commented out, so dispatching the
line `ls` never invokes the builtin: it falls through to external-executable
resolution (spawning `/bin/ls` when PATH finds it) or to command-not-found
reporting when it does not.  The other five names do dispatch as builtins with
the post-command argv under scoped redirection. -/
theorem c3_theorem :
    "ls" ∈ builtin_commands ∧
    "ls" ∉ handlers ∧
    (replStep envLs "ls").invoked = none ∧
    (replStep envLs "ls").spawned = some ("ls", "/bin/ls", []) ∧
    replStep envEmpty "ls" = contResult [(.origErr, "ls: command not found")] ∧
    replStep envLs "echo hi" = ⟨.cont, [], [], [], some ("echo", ["hi"]), none⟩ ∧
    replStep envLs "pwd > f" = ⟨.cont, [], ["f"], ["f"], some ("pwd", []), none⟩ := by decide

/-- C4, counterexample: the claim states that a failure to open a declared
redirect target is reported on the original error stream and the session
continues.  In fact nothing catches the `OSError`: for `echo hi > f` with an
unopenable `f`, the exception escapes the loop body — the outcome is a crash,
not a continue, and nothing is written to the original stderr. -/
theorem c4_counterexample :
    replStep envNoOpen "echo hi > f" = crashResult "OSError: open f" [] ∧
    (replStep envNoOpen "echo hi > f").outcome ≠ StepOutcome.cont ∧
    (replStep envNoOpen "echo hi > f").writes = [] := by decide

/-- C4, amended: if opening a declared redirect target fails, the `OSError`
propagates uncaught out of the REPL loop (the opens in `redirected_streams` and
in the external-command path sit outside every `try`): the session aborts with
no error report and no restoration.  Moreover when the stdout target opens but
the stderr target fails, the already-opened stdout handle is left unclosed.
Termination is thus not limited to `exit` and end-of-input. -/
theorem c4_theorem (env : Env) (hf : env.openOk "f" = false)
    (ho : env.openOk "o" = true) (he : env.openOk "e" = false) :
    replStep env "echo hi > f" = crashResult "OSError: open f" [] ∧
    replStep env "echo hi > o 2> e" = crashResult "OSError: open e" ["o"] := by
  have e1 : replStep env "echo hi > f" = dispatch env "echo" ["hi"] (some "f") none := rfl
  have e2 : replStep env "echo hi > o 2> e" =
      dispatch env "echo" ["hi"] (some "o") (some "e") := rfl
  rw [e1, e2]
  constructor
  · simp only [dispatch, openStreams]
    rw [if_pos (show ("echo" : String) ∈ handlers from by decide), hf]
    simp
  · simp only [dispatch, openStreams]
    rw [if_pos (show ("echo" : String) ∈ handlers from by decide), ho, he]
    simp

/-- C4, witness: the amended theorem applied to the environment in which only
the path `o` can be opened. -/
theorem c4_witness :
    replStep envOnlyO "echo hi > f" = crashResult "OSError: open f" [] ∧
    replStep envOnlyO "echo hi > o 2> e" = crashResult "OSError: open e" ["o"] :=
  c4_theorem envOnlyO (by decide) (by decide) (by decide)

/-- C6, counterexample: the claim states that in command position a unique
candidate gets a trailing space appended whenever it does not already end in a
path separator.  The code instead checks for a trailing space: with an
executable snapshot containing the name `foo ` (trailing space), the prefix
`foo` filters to the single escaped candidate `foo\ `, which ends in no path
separator, yet it is returned unmodified — no space is appended. -/
theorem c6_counterexample :
    completerCandidates builtin_commands ["foo "] (fun _ => []) "foo" 0 "foo" = ["foo\\ "] ∧
    strEndsWith "foo\\ " "/" = false ∧
    completerCandidates builtin_commands ["foo "] (fun _ => []) "foo" 0 "foo" ≠ ["foo\\  "] := by
  decide

/-- C6, amended: in command position, filtering the sorted union of builtin
names and the executable snapshot by the typed prefix (and space-escaping the
survivors) yields the candidate list; if exactly one candidate results and it
does not already end in a *space*, a trailing space is appended (`ech` →
`echo `); an ambiguous prefix returns the candidate set sorted and unmodified
(`ech` with `echoX` present → `echo`, `echoX`); a unique candidate that already
ends in a space is returned unmodified. -/
theorem c6_theorem :
    completerCandidates builtin_commands [] (fun _ => []) "" 0 "ech" = ["echo "] ∧
    completerCandidates builtin_commands ["echoX"] (fun _ => []) "" 0 "ech" =
      ["echo", "echoX"] ∧
    completerCandidates builtin_commands ["foo "] (fun _ => []) "foo" 0 "foo" = ["foo\\ "] := by
  decide

/-- If tokenizing fails at all, the failure is the unclosed-quote error. -/
theorem tokenize_isErr_eq (l : String) (h : isErr (tokenize_with_redirs l) = true) :
    tokenize_with_redirs l = .error "unclosed quote" := by
  by_cases hc : ((tokenizeRun l).in_single || (tokenizeRun l).in_double) = true
  · simp [tokenize_with_redirs, hc]
  · simp [tokenize_with_redirs, hc, isErr] at h

/-- C7: tokenizing fails — necessarily with the unclosed-quote error — exactly
when the end of the input is reached with the single- or double-quote state
still open; and on any line whose (stripped) text tokenizes to that error, the
REPL iteration prints `parse error: unclosed quote` to the original error
stream and continues with the next prompt: the process neither exits nor
crashes. -/
theorem c7_theorem :
    (∀ line : String,
      isErr (tokenize_with_redirs line) = true ↔
        ((tokenizeRun line).in_single || (tokenizeRun line).in_double) = true) ∧
    (∀ (env : Env) (line : String),
      isErr (tokenize_with_redirs (pyStrip line)) = true →
        replStep env line = contResult [(.origErr, "parse error: unclosed quote")]) := by
  constructor
  · intro line
    by_cases hc : ((tokenizeRun line).in_single || (tokenizeRun line).in_double) = true <;>
      simp [tokenize_with_redirs, isErr, hc]
  · intro env line h
    have hne : pyStrip line ≠ "" := by
      intro h0
      rw [h0] at h
      exact absurd h (by decide)
    have htok := tokenize_isErr_eq (pyStrip line) h
    simp only [replStep]
    rw [if_neg hne, htok]
    rfl

/-- C7, witness: the REPL half of the theorem applied to `echo "abc`. -/
theorem c7_witness :
    replStep envEmpty "echo \"abc" = contResult [(.origErr, "parse error: unclosed quote")] :=
  c7_theorem.2 envEmpty "echo \"abc" (by decide)

/-- C9: the `exit` shortcut is tested on the raw first token before redirection
resolution runs — for every line (and any OS environment) whose stripped text
tokenizes with `exit` as first token, the iteration terminates the session
having opened no redirect target, written no message (in particular no
dangling-redirection syntax error), invoked no builtin, and spawned nothing;
so `exit >` terminates cleanly. -/
theorem c9_theorem (env : Env) (line : String) (ts : List String)
    (htok : tokenize_with_redirs (pyStrip line) = .ok ("exit" :: ts)) :
    replStep env line = exitResult := by
  have hne : pyStrip line ≠ "" := by
    intro h0
    rw [h0] at htok
    have h1 : tokenize_with_redirs "" = .ok [] := by decide
    rw [h1] at htok
    simp at htok
  simp only [replStep]
  rw [if_neg hne, htok]
  simp [afterTokenize]

/-- C9, witness: the theorem applied to the line `exit >`, whose dangling
operator would make the resolver fail had it run. -/
theorem c9_witness : replStep envEmpty "exit >" = exitResult :=
  c9_theorem envEmpty "exit >" [">"] (by decide)
